import Mathlib

/-!
Verification of the receipt-tracking application's history/summary logic.

The embedding models the two variants of `TransactionHistory.tsx` (the first
variant's `getStartDate`/`filterReceipts`/`sortedReceipts`/`downloadCSV`, and
the second variant's `getPeriodDateRange`/`useMemo` aggregation), plus the
year-validation step of `App.tsx` (`handleAnalyzeClick`).

Modelling conventions:
- A JavaScript `Date` value is its timestamp in milliseconds since the epoch
  (an `Int`).  The environment's local time zone is taken to be UTC, so the
  local-midnight parse of `YYYY-MM-DD` (manual split, first variant) and the
  UTC parse `new Date("YYYY-MM-DD")` (second variant) coincide.  The civil
  calendar is mapped to epoch days by `daysFromCivil` (proleptic Gregorian).
- `new Date(y, monthIdx, day)` normalizes out-of-range month indices and day
  numbers by rolling over; `jsMakeDay` reproduces this: the month is
  normalized explicitly, and the day argument enters linearly
  (`daysFromCivil_add_day`), which is exactly the rollover semantics.
- "now" is given by its civil components (`Now`), the fields a real
  `new Date()` would report via `getFullYear`/`getMonth`/`getDate`.
  The code never reads the time-of-day components of `now`, so they are
  not modelled.
- JavaScript numbers on receipts are modelled as exact rationals (`ℚ`);
  the aggregation sums are ordinary commutative-monoid sums.
- Strings are handled at the character-list level: `splitDash` models
  `String.prototype.split('-')`, `digitsVal`/`jsNumberChars` model `Number`
  on the digit strings that occur in dates, and `jsParseIntChars` models
  `parseInt(s, 10)` restricted to optional sign plus leading digits (the
  whitespace/exponent forms `parseInt` also accepts never occur here).
- `Array.prototype.sort(cmp)` (stable since ES2019) is modelled by
  `List.mergeSort` with the total preorder induced by the comparator.
-/

/-- Milliseconds in one day. -/
def msPerDay : Int := 86400000

/-- The largest time-of-day offset, 23:59:59.999, in milliseconds. -/
def endOfDayMs : Int := 86399999

/-- Days from the epoch (1970-01-01) to the civil date `y-m-d` (month `m` in
1..12), proleptic Gregorian.  Divisions are Euclidean (`Int./` with positive
literal divisors), i.e. floor divisions here. -/
def daysFromCivil (y m d : Int) : Int :=
  let yAdj := y - (if m ≤ 2 then 1 else 0)
  let era := yAdj / 400
  let yoe := yAdj - era * 400
  let mp := (m + 9) % 12
  let doy := (153 * mp + 2) / 5 + d - 1
  let doe := yoe * 365 + yoe / 4 - yoe / 100 + doy
  era * 146097 + doe - 719468

/-- Epoch day of JavaScript `new Date(y, monthIdx, day)` (time 00:00 local):
month indices outside 0..11 and day numbers outside the month roll over. -/
def jsMakeDay (y monthIdx day : Int) : Int :=
  daysFromCivil ((y * 12 + monthIdx) / 12) ((y * 12 + monthIdx) % 12 + 1) day

/-- JavaScript `Date.prototype.getDay`: 0 = Sunday .. 6 = Saturday.
The epoch day 0 (1970-01-01) was a Thursday (= 4). -/
def jsDayOfWeek (day : Int) : Int := (day + 4) % 7

/-- The civil components of the current moment, as `new Date()` would report
them through `getFullYear` (year), `getMonth` (0-based month index) and
`getDate` (day of month). -/
structure Now where
  year : Int
  monthIdx : Int
  day : Int
deriving DecidableEq

/-- The epoch day of the current moment. -/
def Now.epochDay (n : Now) : Int := jsMakeDay n.year n.monthIdx n.day

theorem daysFromCivil_add_day (y m d k : Int) :
    daysFromCivil y m (d + k) = daysFromCivil y m d + k := by
  simp only [daysFromCivil]
  omega

theorem jsMakeDay_add_day (y mi d k : Int) :
    jsMakeDay y mi (d + k) = jsMakeDay y mi d + k := by
  simp only [jsMakeDay]
  exact daysFromCivil_add_day ..

/-- `new Date(y, mi, a)` shifted from a reference day `b`. -/
theorem jsMakeDay_shift (y mi a b : Int) :
    jsMakeDay y mi a = jsMakeDay y mi b + (a - b) := by
  have h := jsMakeDay_add_day y mi b (a - b)
  simpa using h

/-- For an in-range month index the rollover normalization is the identity. -/
theorem jsMakeDay_eq_daysFromCivil (y mi d : Int) (h0 : 0 ≤ mi) (h1 : mi < 12) :
    jsMakeDay y mi d = daysFromCivil y (mi + 1) d := by
  have ha : (y * 12 + mi) / 12 = y := by omega
  have hb : (y * 12 + mi) % 12 = mi := by omega
  simp only [jsMakeDay, ha, hb]

/-! ### Character-level string helpers (JavaScript `split`, `Number`, `parseInt`) -/

/-- Numeric value of a digit string (used only after an all-digits check). -/
def digitsVal (l : List Char) : Nat :=
  l.foldl (fun a c => a * 10 + (c.toNat - 48)) 0

/-- `String.prototype.split('-')` on the character list of a string. -/
def splitDash : List Char → List (List Char)
  | [] => [[]]
  | c :: rest =>
    if c = '-' then [] :: splitDash rest
    else
      match splitDash rest with
      | chunk :: more => (c :: chunk) :: more
      | [] => [[c]]

/-- JavaScript `Number(s)` on the strings occurring in dates: the empty string
is 0, a digit string is its value, anything else is NaN (`none`).  Signs,
decimals and exponents never occur in the split date chunks. -/
def jsNumberChars (l : List Char) : Option Nat :=
  if l = [] then some 0
  else if l.all Char.isDigit then some (digitsVal l) else none

/-- JavaScript `parseInt(s, 10)` restricted to an optional leading minus sign
followed by digits; `none` is NaN.  (Leading whitespace or `+`, which
`parseInt` would also accept, never occur in the inputs modelled here.) -/
def jsParseIntChars : List Char → Option Int
  | [] => none
  | c :: rest =>
    if c = '-' then
      if rest.takeWhile Char.isDigit = [] then none
      else some (-(digitsVal (rest.takeWhile Char.isDigit) : Int))
    else
      if (c :: rest).takeWhile Char.isDigit = [] then none
      else some ((digitsVal ((c :: rest).takeWhile Char.isDigit) : Int))

/-- Whether `y` is a Gregorian leap year. -/
def isLeapYear (y : Int) : Bool :=
  (y % 4 = 0 && y % 100 ≠ 0) || y % 400 = 0

/-- Number of days in month `m` (1..12) of year `y`. -/
def daysInMonth (y m : Int) : Int :=
  if m = 2 then (if isLeapYear y then 29 else 28)
  else if m = 4 ∨ m = 6 ∨ m = 9 ∨ m = 11 then 30
  else 31

/-- Parse a well-formed ISO `YYYY-MM-DD` date string into its calendar
components.  `none` on anything the strict ISO parse of
`new Date("YYYY-MM-DD")` would reject as an invalid date. -/
def parseYMD (s : String) : Option (Int × Int × Int) :=
  match splitDash s.data with
  | [ys, ms, ds] =>
    if ys.length = 4 ∧ ms.length = 2 ∧ ds.length = 2
        ∧ ys.all Char.isDigit ∧ ms.all Char.isDigit ∧ ds.all Char.isDigit then
      let y : Int := (digitsVal ys : Int)
      let m : Int := (digitsVal ms : Int)
      let d : Int := (digitsVal ds : Int)
      if 1 ≤ m ∧ m ≤ 12 ∧ 1 ≤ d ∧ d ≤ daysInMonth y m then some (y, m, d)
      else none
    else none
  | _ => none

/-- Timestamp of `new Date(s)` for a well-formed ISO date string: UTC midnight
of the parsed calendar date.  `none` is an invalid date (NaN timestamp). -/
def jsDateUTCms (s : String) : Option Int :=
  (parseYMD s).map (fun p => daysFromCivil p.1 p.2.1 p.2.2 * msPerDay)

/-! ### The record model (`types.ts`, spec §3/§6) -/

/-- A pre-save transaction record, the extraction result shape
(`transaction_name`, `total_amount`, `transaction_date`, `category`, each
nullable).  `types.ts` itself is not among the provided sources; the field
set is pinned by the response schema in the extraction client and by every
use site. -/
structure ReceiptData where
  transaction_name : Option String
  total_amount : Option ℚ
  transaction_date : Option String
  category : Option String
deriving DecidableEq

/-- A saved record: a `ReceiptData` plus an identifier (opaque; none of the
verified operations inspect it beyond equality). -/
structure SavedReceiptData where
  id : String
  transaction_name : Option String
  total_amount : Option ℚ
  transaction_date : Option String
  category : Option String
deriving DecidableEq

/-- One row of the category summary (second variant's `SummaryData`). -/
structure SummaryData where
  category : String
  total : ℚ
  transactionCount : Nat
deriving DecidableEq

/-- JavaScript `x || dflt` on a nullable string: `null` and `""` are falsy. -/
def jsStrOr (o : Option String) (dflt : String) : String :=
  match o with
  | none => dflt
  | some s => if s = "" then dflt else s

/-- The period tokens.  The first variant has no `Weekly`; its functions are
never applied to it (its button list omits it). -/
inductive FilterPeriod
  | Daily | Weekly | Monthly | Quarterly | Yearly | All
deriving DecidableEq

/-! ### First variant of `TransactionHistory.tsx` -/

/-- First variant, `getStartDate`: a copy of `now` is set to local midnight
(`setHours(0,0,0,0)`) and then shifted back a fixed number of days with
`setDate(getDate() - k)` (day rollover handled by `jsMakeDay`).  `Daily`
leaves it at today's midnight; the `switch` has no case for `All` (or
`Weekly`, absent from this variant), which likewise leaves it unchanged. -/
def getStartDate (now : Now) (p : FilterPeriod) : Int :=
  match p with
  | FilterPeriod.Monthly => jsMakeDay now.year now.monthIdx (now.day - 30) * msPerDay
  | FilterPeriod.Quarterly => jsMakeDay now.year now.monthIdx (now.day - 90) * msPerDay
  | FilterPeriod.Yearly => jsMakeDay now.year now.monthIdx (now.day - 365) * msPerDay
  | _ => now.epochDay * msPerDay

/-- First variant's manual local-time parse:
`const [year, month, day] = r.transaction_date.split('-').map(Number)` then
`new Date(year, month - 1, day)`.  Destructuring uses the first three chunks;
a missing or non-numeric chunk gives an invalid date (`none`), whose NaN
timestamp fails every comparison. -/
def parseLocalMs (s : String) : Option Int :=
  match splitDash s.data with
  | ys :: ms :: ds :: _ =>
    match jsNumberChars ys, jsNumberChars ms, jsNumberChars ds with
    | some y, some m, some d =>
      some (jsMakeDay (y : Int) ((m : Int) - 1) (d : Int) * msPerDay)
    | _, _, _ => none
  | _ => none

/-- First variant: the predicate of the `receipts.filter` inside
`filterReceipts` — records with a falsy (`null` or empty) date are dropped;
`Daily` compares timestamps for equality, other periods require
`receiptDate >= startDate`. -/
def v1Keep (now : Now) (period : FilterPeriod) (r : SavedReceiptData) : Bool :=
  match r.transaction_date with
  | none => false
  | some s =>
    if s = "" then false
    else
      match parseLocalMs s with
      | none => false
      | some t =>
        if period = FilterPeriod.Daily then decide (t = getStartDate now period)
        else decide (getStartDate now period ≤ t)

/-- First variant, `filterReceipts`: `All` returns the collection unchanged,
anything else filters by `v1Keep`. -/
def filterReceipts (now : Now) (period : FilterPeriod)
    (receipts : List SavedReceiptData) : List SavedReceiptData :=
  if period = FilterPeriod.All then receipts
  else receipts.filter (v1Keep now period)

/-- Sort key used by both variants' flat-view sort:
`r.transaction_date ? new Date(r.transaction_date).getTime() : 0` — a falsy
(null or empty) date counts as the epoch.  A present-but-malformed date
string would have a NaN timestamp, making the comparator inconsistent; such
strings are outside the data model and are given key 0 here. -/
def dateKeyAll (r : SavedReceiptData) : Int :=
  match r.transaction_date with
  | none => 0
  | some s =>
    if s = "" then 0
    else
      match jsDateUTCms s with
      | some t => t
      | none => 0

/-- Both variants' flat-view comparator `(a, b) => dateB - dateA` as the
"may precede" relation: `a` may come before `b` when the comparator is
nonpositive, i.e. `dateKeyAll b ≤ dateKeyAll a`. -/
def cmpDateDesc (a b : SavedReceiptData) : Bool :=
  decide (dateKeyAll b ≤ dateKeyAll a)

/-- Both variants' flat-view sort `[...].sort((a, b) => dateB - dateA)`:
a stable sort, descending by `dateKeyAll`. -/
def sortReceiptsDesc (l : List SavedReceiptData) : List SavedReceiptData :=
  l.mergeSort cmpDateDesc

/-- First variant, `sortedReceipts`: the filtered list, sorted descending. -/
def sortedReceiptsV1 (now : Now) (period : FilterPeriod)
    (receipts : List SavedReceiptData) : List SavedReceiptData :=
  sortReceiptsDesc (filterReceipts now period receipts)

/-! ### CSV export (first variant's `downloadCSV`; identical row code in the
second variant's `All` branch) -/

/-- `.replace(/"/g, '""')`: double every double-quote character. -/
def jsReplaceQuotes (s : String) : String :=
  String.mk (s.data.foldr (fun c acc => if c = '"' then '"' :: '"' :: acc else c :: acc) [])

/-- `n.toFixed(2)` for a nonnegative `n` scaled to hundredths: integer part,
a dot, and a zero-padded two-digit fraction. -/
def natFixed2 (n : Nat) : String :=
  toString (n / 100) ++ "." ++
    (if n % 100 < 10 then ("0") ++ toString (n % 100) else toString (n % 100))

/-- JavaScript `Number.prototype.toFixed(2)`: round to the nearest hundredth,
ties away from zero (the "larger n" rule of the ECMAScript algorithm, applied
to the absolute value). -/
def jsToFixed2 (q : ℚ) : String :=
  if q < 0 then ("-") ++ natFixed2 ⌊-q * 100 + 1 / 2⌋.toNat
  else natFixed2 ⌊q * 100 + 1 / 2⌋.toNat

/-- One flat-view CSV row:
`[date || 'N/A', `"${(name || 'N/A').replace(/"/g,'""')}"`,
amount?.toFixed(2) || '0.00', category || 'N/A'].join(',')`.
`toFixed` never yields a falsy string, so the `|| '0.00'` fallback fires
exactly when the amount is absent (optional chaining gives `undefined`). -/
def csvRowAll (r : SavedReceiptData) : String :=
  String.intercalate (",")
    [ jsStrOr r.transaction_date ("N/A"),
      "\"" ++ jsReplaceQuotes (jsStrOr r.transaction_name ("N/A")) ++ "\"",
      (match r.total_amount with
       | some q => jsToFixed2 q
       | none => "0.00"),
      jsStrOr r.category ("N/A") ]

/-! ### `App.tsx`: the year validation in `handleAnalyzeClick` -/

/-- The post-extraction year check of `handleAnalyzeClick`: when a truthy
`transaction_date` is present, `parseInt(date.split('-')[0], 10)` must equal
the current year, else the result is rejected with the year-mismatch message
and never reaches `setReceiptData` (a NaN parse also rejects, since
`NaN !== currentYear`).  `Except.ok` is the accepted record reaching
`setReceiptData`. -/
def validateYear (currentYear : Int) (result : ReceiptData) :
    Except String ReceiptData :=
  match result.transaction_date with
  | none => Except.ok result
  | some s =>
    if s = "" then Except.ok result
    else
      match jsParseIntChars ((splitDash s.data).headD []) with
      | none =>
        Except.error ("Invalid year. Only receipts for the calendar year "
          ++ toString currentYear ++ " are accepted.")
      | some y =>
        if y = currentYear then Except.ok result
        else
          Except.error ("Invalid year. Only receipts for the calendar year "
            ++ toString currentYear ++ " are accepted.")

/-! ### Second variant of `TransactionHistory.tsx` -/

/-- Second variant, `getPeriodDateRange`: the inclusive `[start, end]`
timestamp range for a period, anchored at `now`.

Line-by-line correspondence (title strings are presentation and omitted):
- `Daily`: `start.setHours(0,0,0,0)`; `end.setHours(23,59,59,999)`.
- `Weekly`: `dayOfWeek = now.getDay()`;
  `diff = now.getDate() - dayOfWeek + (dayOfWeek === 0 ? -6 : 1)`;
  `start = new Date(now.setDate(diff))` at midnight;
  `end.setDate(start.getDate() + 6)` at 23:59:59.999.  `setDate` keeps the
  year/month fields and replaces the day-of-month, so the timestamps are
  `jsMakeDay year monthIdx diff` and `jsMakeDay year monthIdx (diff + 6)`;
  the `getDate() + 6` bookkeeping is exact because `jsMakeDay` is linear in
  its day argument (`jsMakeDay_add_day`), whether or not the stored
  components are normalized.
- `Monthly`: `new Date(y, m, 1)` through `new Date(y, m + 1, 0)`.
- `Quarterly`: `quarter = Math.floor(m / 3)` (floor division);
  `new Date(y, 3q, 1)` through `new Date(y, 3q + 3, 0)`.
- `Yearly`: `new Date(y, 0, 1)` through `new Date(y, 11, 31)`.
- `All` never reaches this function in the component; the `switch` would
  leave `start = end = now` (midnight here, as `Now` carries no time). -/
def getPeriodDateRange (now : Now) (period : FilterPeriod) : Int × Int :=
  match period with
  | FilterPeriod.Daily =>
    (now.epochDay * msPerDay, now.epochDay * msPerDay + endOfDayMs)
  | FilterPeriod.Weekly =>
    let dayOfWeek := jsDayOfWeek now.epochDay
    let diff := now.day - dayOfWeek + (if dayOfWeek = 0 then -6 else 1)
    (jsMakeDay now.year now.monthIdx diff * msPerDay,
     jsMakeDay now.year now.monthIdx (diff + 6) * msPerDay + endOfDayMs)
  | FilterPeriod.Monthly =>
    (jsMakeDay now.year now.monthIdx 1 * msPerDay,
     jsMakeDay now.year (now.monthIdx + 1) 0 * msPerDay + endOfDayMs)
  | FilterPeriod.Quarterly =>
    let quarter := now.monthIdx / 3
    (jsMakeDay now.year (quarter * 3) 1 * msPerDay,
     jsMakeDay now.year (quarter * 3 + 3) 0 * msPerDay + endOfDayMs)
  | FilterPeriod.Yearly =>
    (jsMakeDay now.year 0 1 * msPerDay,
     jsMakeDay now.year 11 31 * msPerDay + endOfDayMs)
  | FilterPeriod.All =>
    (now.epochDay * msPerDay, now.epochDay * msPerDay)

/-- Second variant: the predicate of the `receipts.filter` computing
`relevantReceipts` — falsy dates are dropped, otherwise
`receiptDate >= start && receiptDate <= end` with the UTC parse
`new Date(r.transaction_date)` (an invalid date has NaN timestamp, failing
both comparisons). -/
def v2Keep (now : Now) (period : FilterPeriod) (r : SavedReceiptData) : Bool :=
  match r.transaction_date with
  | none => false
  | some s =>
    if s = "" then false
    else
      match jsDateUTCms s with
      | none => false
      | some t =>
        decide ((getPeriodDateRange now period).1 ≤ t)
          && decide (t ≤ (getPeriodDateRange now period).2)

/-- Second variant, `relevantReceipts`. -/
def relevantReceipts (now : Now) (period : FilterPeriod)
    (receipts : List SavedReceiptData) : List SavedReceiptData :=
  receipts.filter (v2Keep now period)

/-- One step of the grouping loop: `summary[category]` is created as
`{total: 0, count: 0}` on first sight, then `total += amount; count += 1`.
The association list records the object's properties in creation order;
the `Object.entries` read-out order is modelled separately by
`jsObjectEntries`, since ECMAScript does not report all string keys in
creation order. -/
def insertEntry : List (String × ℚ × Nat) → String → ℚ → List (String × ℚ × Nat)
  | [], cat, amt => [(cat, 0 + amt, 0 + 1)]
  | (c, t, n) :: rest, cat, amt =>
    if c = cat then (c, t + amt, n + 1) :: rest
    else (c, t, n) :: insertEntry rest cat amt

/-- `const category = receipt.category || 'Uncategorized'`. -/
def categoryOf (r : SavedReceiptData) : String :=
  jsStrOr r.category ("Uncategorized")

/-- `const amount = receipt.total_amount || 0` (`0` is falsy, so `|| 0`
coincides with defaulting the absent value to 0). -/
def amountOf (r : SavedReceiptData) : ℚ :=
  r.total_amount.getD 0

/-- The grouping loop `for (const receipt of relevantReceipts)`. -/
def buildSummary (l : List SavedReceiptData) : List (String × ℚ × Nat) :=
  l.foldl (fun acc r => insertEntry acc (categoryOf r) (amountOf r)) []

/-- Whether a string is a canonical ECMAScript array-index property name:
the shortest decimal form of an integer `n` with `0 ≤ n < 2^32 − 1` ("0", or
digits without a leading zero, value below 4294967295). -/
def isArrayIndexName (s : String) : Bool :=
  match s.data with
  | [] => false
  | ['0'] => true
  | c :: rest =>
    c.isDigit && !(c = '0') && rest.all Char.isDigit
      && decide (digitsVal (c :: rest) < 4294967295)

/-- Insert one entry into a list of array-index-keyed entries, keeping the
list sorted ascending by numeric key value. -/
def insertByVal (e : String × ℚ × Nat) :
    List (String × ℚ × Nat) → List (String × ℚ × Nat)
  | [] => [e]
  | x :: xs =>
    if digitsVal e.1.data ≤ digitsVal x.1.data then e :: x :: xs
    else x :: insertByVal e xs

/-- Sort array-index-keyed entries ascending by numeric key value. -/
def sortByIndexVal : List (String × ℚ × Nat) → List (String × ℚ × Nat)
  | [] => []
  | x :: xs => insertByVal x (sortByIndexVal xs)

/-- The `Object.entries` read-out order on the grouping object
(ECMAScript `OrdinaryOwnPropertyKeys`): canonical array-index keys first,
in ascending numeric order, then the remaining string keys in property
creation order. -/
def jsObjectEntries (l : List (String × ℚ × Nat)) : List (String × ℚ × Nat) :=
  sortByIndexVal (l.filter (fun e => isArrayIndexName e.1))
    ++ l.filter (fun e => !isArrayIndexName e.1)

/-- `Object.entries(summary).map(([category, data]) => ({category, total,
transactionCount}))`, in the `Object.entries` key order. -/
def summaryEntries (l : List SavedReceiptData) : List SummaryData :=
  (jsObjectEntries (buildSummary l)).map (fun e => ⟨e.1, e.2.1, e.2.2⟩)

/-- The summary comparator `(a, b) => b.total - a.total` as the "may precede"
relation: `a` may come before `b` when `b.total ≤ a.total`. -/
def cmpTotalDesc (a b : SummaryData) : Bool :=
  decide (b.total ≤ a.total)

/-- `.sort((a, b) => b.total - a.total)`: stable, descending by total. -/
def sortSummaryDesc (l : List SummaryData) : List SummaryData :=
  l.mergeSort cmpTotalDesc

/-- Second variant: the `useMemo` body producing `filteredReceipts` and
`summaryData`.  `All` gives the date-descending flat list and no summary;
any other period gives the period-filtered list and the sorted category
summary. -/
def historyView (now : Now) (period : FilterPeriod)
    (receipts : List SavedReceiptData) : List SavedReceiptData × List SummaryData :=
  if period = FilterPeriod.All then (sortReceiptsDesc receipts, [])
  else
    (relevantReceipts now period receipts,
     sortSummaryDesc (summaryEntries (relevantReceipts now period receipts)))

/-! ### Claim-side definitions (worded from the specification, for comparison
with the source-derived definitions above) -/

/-- Spec wording: the timestamp of a record's transaction date, for a record
carrying a well-formed ISO date (midnight of that calendar date). -/
def claimDateMs (y m d : Int) : Int := daysFromCivil y m d * msPerDay

/-- Spec wording: records with an absent date sort "as if dated at the
epoch"; otherwise the key is the date's timestamp. -/
def claimDateKey (r : SavedReceiptData) : Int :=
  match r.transaction_date with
  | none => 0
  | some s =>
    match parseYMD s with
    | some p => claimDateMs p.1 p.2.1 p.2.2
    | none => 0

/-- Spec wording, Monthly: the epoch day of the first calendar day of the
current month. -/
def claimMonthFirstDay (now : Now) : Int := jsMakeDay now.year now.monthIdx 1

/-- Spec wording, Monthly: the epoch day of the last calendar day of the
current month (the day before the first day of the next month). -/
def claimMonthLastDay (now : Now) : Int := jsMakeDay now.year (now.monthIdx + 1) 1 - 1

/-- Spec wording: "its transaction date falls between the first calendar day
of the current month at midnight and the last calendar day of the current
month at 23:59:59.999, both endpoints inclusive", decided on a record. -/
def claimMonthlyIncludes (now : Now) (r : SavedReceiptData) : Bool :=
  match r.transaction_date with
  | none => false
  | some s =>
    match parseYMD s with
    | none => false
    | some p =>
      decide (claimMonthFirstDay now * msPerDay ≤ claimDateMs p.1 p.2.1 p.2.2)
        && decide (claimDateMs p.1 p.2.1 p.2.2
            ≤ claimMonthLastDay now * msPerDay + endOfDayMs)

/-- Spec wording: escaping doubles every embedded double quote, character by
character. -/
def escapeQuotesSpec (s : String) : String :=
  String.mk (s.data.flatMap (fun c => if c = '"' then ['"', '"'] else [c]))

/-- The claim's reading of a flat CSV row: date, quoted/escaped merchant,
amount, category, comma-joined, with EVERY absent value (including an absent
amount) rendered as the literal text `N/A`. -/
def claimRowSpec (r : SavedReceiptData) : String :=
  jsStrOr r.transaction_date ("N/A") ++ "," ++
    ("\"" ++ escapeQuotesSpec (jsStrOr r.transaction_name ("N/A")) ++ "\"") ++ "," ++
    (match r.total_amount with
     | some q => jsToFixed2 q
     | none => "N/A") ++ "," ++
    jsStrOr r.category ("N/A")

/-- The amended reading of a flat CSV row: as `claimRowSpec`, except that an
absent amount renders as `0.00` (matching both variants' `downloadCSV`). -/
def amendedRowSpec (r : SavedReceiptData) : String :=
  jsStrOr r.transaction_date ("N/A") ++ "," ++
    ("\"" ++ escapeQuotesSpec (jsStrOr r.transaction_name ("N/A")) ++ "\"") ++ "," ++
    (match r.total_amount with
     | some q => jsToFixed2 q
     | none => "0.00") ++ "," ++
    jsStrOr r.category ("N/A")

/-- Spec wording: the sequence of group categories "in the order in which
their categories were first encountered", i.e. first occurrences in order. -/
def firstOccur : List String → List String :=
  fun l => l.foldl (fun acc c => if c ∈ acc then acc else acc ++ [c]) []

/-! ### Helper lemmas -/

theorem takeWhile_all_eq {p : Char → Bool} :
    ∀ {l : List Char}, l.all p = true → l.takeWhile p = l
  | [], _ => rfl
  | c :: t, h => by
    simp only [List.all_cons, Bool.and_eq_true] at h
    simp [List.takeWhile_cons, h.1, takeWhile_all_eq h.2]

theorem parseYMD_spec {s : String} {y m d : Int} (h : parseYMD s = some (y, m, d)) :
    ∃ ys ms ds : List Char,
      splitDash s.data = [ys, ms, ds] ∧
      ys ≠ [] ∧ ys.all Char.isDigit = true ∧
      ms ≠ [] ∧ ms.all Char.isDigit = true ∧
      ds ≠ [] ∧ ds.all Char.isDigit = true ∧
      y = (digitsVal ys : Int) ∧ m = (digitsVal ms : Int) ∧ d = (digitsVal ds : Int) ∧
      1 ≤ m ∧ m ≤ 12 := by
  unfold parseYMD at h
  split at h
  case h_2 => exact absurd h (by simp)
  case h_1 ys ms ds heq =>
    split at h
    case isFalse => exact absurd h (by simp)
    case isTrue hc =>
      simp only [] at h
      split at h
      case isFalse => exact absurd h (by simp)
      case isTrue hr =>
        simp only [Option.some.injEq, Prod.mk.injEq] at h
        obtain ⟨h1, h2, h3⟩ := h
        refine ⟨ys, ms, ds, heq, ?_, hc.2.2.2.1, ?_, hc.2.2.2.2.1, ?_, hc.2.2.2.2.2,
          h1.symm, h2.symm, h3.symm, ?_, ?_⟩
        · intro hn; rw [hn] at hc; simp at hc
        · intro hn; rw [hn] at hc; simp at hc
        · intro hn; rw [hn] at hc; simp at hc
        · rw [← h2]; exact hr.1
        · rw [← h2]; exact hr.2.1

theorem parseYMD_ne_empty {s : String} {p : Int × Int × Int}
    (h : parseYMD s = some p) : s ≠ "" := by
  intro he
  subst he
  have hnone : parseYMD ("") = none := by decide
  rw [hnone] at h
  exact absurd h (by simp)

theorem jsNumberChars_digits {l : List Char} (h1 : l ≠ [])
    (h2 : l.all Char.isDigit = true) : jsNumberChars l = some (digitsVal l) := by
  simp [jsNumberChars, h1, h2]

theorem jsMakeDay_pred_month {y m d : Int} (h1 : 1 ≤ m) (h2 : m ≤ 12) :
    jsMakeDay y (m - 1) d = daysFromCivil y m d := by
  have h := jsMakeDay_eq_daysFromCivil y (m - 1) d (by omega) (by omega)
  simpa using h

theorem parseLocalMs_of_parseYMD {s : String} {y m d : Int}
    (h : parseYMD s = some (y, m, d)) :
    parseLocalMs s = some (daysFromCivil y m d * msPerDay) := by
  obtain ⟨ys, ms, ds, heq, hy1, hy2, hm1, hm2, hd1, hd2, hyv, hmv, hdv, hml, hmu⟩ :=
    parseYMD_spec h
  unfold parseLocalMs
  rw [heq]
  simp only [jsNumberChars_digits hy1 hy2, jsNumberChars_digits hm1 hm2,
    jsNumberChars_digits hd1 hd2]
  rw [← hyv, ← hmv, ← hdv, jsMakeDay_pred_month hml hmu]

theorem jsDateUTCms_of_parseYMD {s : String} {y m d : Int}
    (h : parseYMD s = some (y, m, d)) :
    jsDateUTCms s = some (daysFromCivil y m d * msPerDay) := by
  simp [jsDateUTCms, h]

theorem jsParseIntChars_firstChunk {s : String} {y m d : Int}
    (h : parseYMD s = some (y, m, d)) :
    jsParseIntChars ((splitDash s.data).headD []) = some y := by
  obtain ⟨ys, ms, ds, heq, hy1, hy2, _, _, _, _, hyv, _, _, _, _⟩ := parseYMD_spec h
  rw [heq]
  show jsParseIntChars ys = some y
  obtain ⟨c, t, rfl⟩ : ∃ c t, ys = c :: t := by
    cases ys with
    | nil => exact absurd rfl hy1
    | cons c t => exact ⟨c, t, rfl⟩
  have hcd : c.isDigit = true := by
    simp only [List.all_cons, Bool.and_eq_true] at hy2
    exact hy2.1
  have hcne : ¬c = '-' := by
    intro hc
    rw [hc] at hcd
    exact absurd hcd (by decide)
  rw [jsParseIntChars, if_neg hcne, if_neg (by rw [takeWhile_all_eq hy2]; simp),
    takeWhile_all_eq hy2, hyv]

/-! ### Grouping lemmas -/

theorem insertEntry_totals (acc : List (String × ℚ × Nat)) (c : String) (a : ℚ) :
    ((insertEntry acc c a).map (fun e => e.2.1)).sum
      = (acc.map (fun e => e.2.1)).sum + a := by
  induction acc with
  | nil => simp [insertEntry]
  | cons e rest ih =>
    obtain ⟨c', t, n⟩ := e
    by_cases hc : c' = c
    · simp only [insertEntry, if_pos hc, List.map_cons, List.sum_cons]
      ring
    · simp only [insertEntry, if_neg hc, List.map_cons, List.sum_cons, ih]
      ring

theorem insertEntry_counts (acc : List (String × ℚ × Nat)) (c : String) (a : ℚ) :
    ((insertEntry acc c a).map (fun e => e.2.2)).sum
      = (acc.map (fun e => e.2.2)).sum + 1 := by
  induction acc with
  | nil => simp [insertEntry]
  | cons e rest ih =>
    obtain ⟨c', t, n⟩ := e
    by_cases hc : c' = c
    · simp only [insertEntry, if_pos hc, List.map_cons, List.sum_cons]
      omega
    · simp only [insertEntry, if_neg hc, List.map_cons, List.sum_cons, ih]
      omega

theorem insertEntry_pos {acc : List (String × ℚ × Nat)} {c : String} {a : ℚ}
    (h : ∀ e ∈ acc, 1 ≤ e.2.2) : ∀ e ∈ insertEntry acc c a, 1 ≤ e.2.2 := by
  induction acc with
  | nil =>
    intro e he
    simp only [insertEntry, List.mem_singleton] at he
    subst he
    simp
  | cons e0 rest ih =>
    obtain ⟨c', t, n⟩ := e0
    by_cases hc : c' = c
    · intro e he
      simp only [insertEntry, if_pos hc, List.mem_cons] at he
      rcases he with he | he
      · subst he; simp
      · exact h e (List.mem_cons_of_mem _ he)
    · intro e he
      simp only [insertEntry, if_neg hc, List.mem_cons] at he
      rcases he with he | he
      · subst he; exact h _ (List.mem_cons_self _ _)
      · exact ih (fun e' he' => h e' (List.mem_cons_of_mem _ he')) e he

theorem insertEntry_keys (acc : List (String × ℚ × Nat)) (c : String) (a : ℚ) :
    (insertEntry acc c a).map (fun e => e.1)
      = (if c ∈ acc.map (fun e => e.1) then acc.map (fun e => e.1)
         else acc.map (fun e => e.1) ++ [c]) := by
  induction acc with
  | nil => simp [insertEntry]
  | cons e rest ih =>
    obtain ⟨c', t, n⟩ := e
    by_cases hc : c' = c
    · subst hc
      simp [insertEntry]
    · simp only [insertEntry, if_neg hc, List.map_cons, ih, List.mem_cons]
      have hne : ¬c = c' := fun h => hc h.symm
      by_cases hm : c ∈ rest.map (fun e => e.1)
      · simp [hm, hne]
      · simp [hm, hne]

theorem buildSummary_go_totals (l : List SavedReceiptData) :
    ∀ acc, ((l.foldl (fun acc r => insertEntry acc (categoryOf r) (amountOf r)) acc).map
        (fun e => e.2.1)).sum
      = (acc.map (fun e => e.2.1)).sum + (l.map amountOf).sum := by
  induction l with
  | nil => intro acc; simp
  | cons r t ih =>
    intro acc
    simp only [List.foldl_cons, List.map_cons, List.sum_cons, ih, insertEntry_totals]
    ring

theorem buildSummary_totals (l : List SavedReceiptData) :
    ((buildSummary l).map (fun e => e.2.1)).sum = (l.map amountOf).sum := by
  have h := buildSummary_go_totals l []
  simpa [buildSummary] using h

theorem buildSummary_go_counts (l : List SavedReceiptData) :
    ∀ acc, ((l.foldl (fun acc r => insertEntry acc (categoryOf r) (amountOf r)) acc).map
        (fun e => e.2.2)).sum
      = (acc.map (fun e => e.2.2)).sum + l.length := by
  induction l with
  | nil => intro acc; simp
  | cons r t ih =>
    intro acc
    simp only [List.foldl_cons, List.length_cons, ih, insertEntry_counts]
    omega

theorem buildSummary_counts (l : List SavedReceiptData) :
    ((buildSummary l).map (fun e => e.2.2)).sum = l.length := by
  have h := buildSummary_go_counts l []
  simpa [buildSummary] using h

theorem buildSummary_go_pos (l : List SavedReceiptData) :
    ∀ acc, (∀ e ∈ acc, 1 ≤ e.2.2) →
      ∀ e ∈ l.foldl (fun acc r => insertEntry acc (categoryOf r) (amountOf r)) acc,
        1 ≤ e.2.2 := by
  induction l with
  | nil => intro acc h; simpa using h
  | cons r t ih =>
    intro acc h
    simp only [List.foldl_cons]
    exact ih _ (insertEntry_pos h)

theorem buildSummary_pos (l : List SavedReceiptData) :
    ∀ e ∈ buildSummary l, 1 ≤ e.2.2 :=
  buildSummary_go_pos l [] (by simp)

theorem buildSummary_go_keys (l : List SavedReceiptData) :
    ∀ acc, (l.foldl (fun acc r => insertEntry acc (categoryOf r) (amountOf r)) acc).map
        (fun e => e.1)
      = (l.map categoryOf).foldl
          (fun ks c => if c ∈ ks then ks else ks ++ [c]) (acc.map (fun e => e.1)) := by
  induction l with
  | nil => intro acc; simp
  | cons r t ih =>
    intro acc
    simp only [List.foldl_cons, List.map_cons, ih, insertEntry_keys]

theorem buildSummary_keys (l : List SavedReceiptData) :
    (buildSummary l).map (fun e => e.1) = firstOccur (l.map categoryOf) := by
  have h := buildSummary_go_keys l []
  simpa [buildSummary, firstOccur] using h

/-! ### Sorting lemmas -/

theorem cmpTotalDesc_trans : ∀ a b c : SummaryData,
    cmpTotalDesc a b → cmpTotalDesc b c → cmpTotalDesc a c := by
  intro a b c hab hbc
  simp only [cmpTotalDesc, decide_eq_true_eq] at *
  exact le_trans hbc hab

theorem cmpTotalDesc_total : ∀ a b : SummaryData,
    cmpTotalDesc a b || cmpTotalDesc b a := by
  intro a b
  simp only [cmpTotalDesc, Bool.or_eq_true, decide_eq_true_eq]
  exact le_total b.total a.total

theorem cmpDateDesc_trans : ∀ a b c : SavedReceiptData,
    cmpDateDesc a b → cmpDateDesc b c → cmpDateDesc a c := by
  intro a b c hab hbc
  simp only [cmpDateDesc, decide_eq_true_eq] at *
  exact le_trans hbc hab

theorem cmpDateDesc_total : ∀ a b : SavedReceiptData,
    cmpDateDesc a b || cmpDateDesc b a := by
  intro a b
  simp only [cmpDateDesc, Bool.or_eq_true, decide_eq_true_eq]
  exact le_total (dateKeyAll b) (dateKeyAll a)

theorem sortSummaryDesc_perm (l : List SummaryData) :
    List.Perm (sortSummaryDesc l) l :=
  List.mergeSort_perm l cmpTotalDesc

theorem sortSummaryDesc_sorted (l : List SummaryData) :
    (sortSummaryDesc l).Pairwise (fun a b => b.total ≤ a.total) := by
  have h := List.sorted_mergeSort cmpTotalDesc_trans cmpTotalDesc_total l
  exact h.imp (fun hab => by simpa [cmpTotalDesc] using hab)

theorem sortSummaryDesc_stable {x y : SummaryData} {l : List SummaryData}
    (hxy : cmpTotalDesc x y) (h : [x, y].Sublist l) :
    [x, y].Sublist (sortSummaryDesc l) :=
  List.pair_sublist_mergeSort cmpTotalDesc_trans cmpTotalDesc_total hxy h

theorem sortReceiptsDesc_perm (l : List SavedReceiptData) :
    List.Perm (sortReceiptsDesc l) l :=
  List.mergeSort_perm l cmpDateDesc

theorem sortReceiptsDesc_sorted (l : List SavedReceiptData) :
    (sortReceiptsDesc l).Pairwise (fun a b => dateKeyAll b ≤ dateKeyAll a) := by
  have h := List.sorted_mergeSort cmpDateDesc_trans cmpDateDesc_total l
  exact h.imp (fun hab => by simpa [cmpDateDesc] using hab)

/-! ### Glue lemmas -/

theorem historyView_fst (now : Now) (period : FilterPeriod)
    (receipts : List SavedReceiptData) (h : period ≠ FilterPeriod.All) :
    (historyView now period receipts).1 = relevantReceipts now period receipts := by
  unfold historyView
  rw [if_neg h]

theorem historyView_snd (now : Now) (period : FilterPeriod)
    (receipts : List SavedReceiptData) (h : period ≠ FilterPeriod.All) :
    (historyView now period receipts).2
      = sortSummaryDesc (summaryEntries (relevantReceipts now period receipts)) := by
  unfold historyView
  rw [if_neg h]

theorem historyView_all (now : Now) (receipts : List SavedReceiptData) :
    historyView now FilterPeriod.All receipts = (sortReceiptsDesc receipts, []) := by
  unfold historyView
  rw [if_pos rfl]

theorem insertByVal_perm (e : String × ℚ × Nat) :
    ∀ l : List (String × ℚ × Nat), List.Perm (insertByVal e l) (e :: l)
  | [] => List.Perm.refl _
  | x :: xs => by
    unfold insertByVal
    by_cases h : digitsVal e.1.data ≤ digitsVal x.1.data
    · rw [if_pos h]
    · rw [if_neg h]
      exact ((insertByVal_perm e xs).cons x).trans (List.Perm.swap e x xs)

theorem sortByIndexVal_perm :
    ∀ l : List (String × ℚ × Nat), List.Perm (sortByIndexVal l) l
  | [] => List.Perm.refl _
  | x :: xs =>
    (insertByVal_perm x (sortByIndexVal xs)).trans ((sortByIndexVal_perm xs).cons x)

theorem jsObjectEntries_perm (l : List (String × ℚ × Nat)) :
    List.Perm (jsObjectEntries l) l := by
  unfold jsObjectEntries
  exact ((sortByIndexVal_perm _).append (List.Perm.refl _)).trans
    (List.filter_append_perm (fun e => isArrayIndexName e.1) l)

/-- When no key is an array-index name, `Object.entries` reports the entries
in plain creation order. -/
theorem jsObjectEntries_of_no_index {l : List (String × ℚ × Nat)}
    (h : ∀ e ∈ l, isArrayIndexName e.1 = false) : jsObjectEntries l = l := by
  unfold jsObjectEntries
  have h1 : l.filter (fun e => isArrayIndexName e.1) = [] := by
    rw [List.filter_eq_nil_iff]
    intro e he
    simp [h e he]
  have h2 : l.filter (fun e => !isArrayIndexName e.1) = l := by
    rw [List.filter_eq_self]
    intro e he
    simp [h e he]
  rw [h1, h2]
  rfl

theorem summaryEntries_perm (l : List SavedReceiptData) :
    List.Perm (summaryEntries l)
      ((buildSummary l).map (fun e => (⟨e.1, e.2.1, e.2.2⟩ : SummaryData))) := by
  unfold summaryEntries
  exact (jsObjectEntries_perm (buildSummary l)).map _

theorem summaryEntries_total_sum (l : List SavedReceiptData) :
    ((summaryEntries l).map SummaryData.total).sum
      = ((buildSummary l).map (fun e => e.2.1)).sum := by
  have h := ((summaryEntries_perm l).map SummaryData.total).sum_eq
  rw [h, List.map_map]
  rfl

theorem summaryEntries_count_sum (l : List SavedReceiptData) :
    ((summaryEntries l).map SummaryData.transactionCount).sum
      = ((buildSummary l).map (fun e => e.2.2)).sum := by
  have h := ((summaryEntries_perm l).map SummaryData.transactionCount).sum_eq
  rw [h, List.map_map]
  rfl

theorem summaryEntries_mem {l : List SavedReceiptData} {g : SummaryData}
    (hg : g ∈ summaryEntries l) :
    ∃ e ∈ buildSummary l, (⟨e.1, e.2.1, e.2.2⟩ : SummaryData) = g := by
  have hg2 := (summaryEntries_perm l).mem_iff.mp hg
  rw [List.mem_map] at hg2
  obtain ⟨e, he, rfl⟩ := hg2
  exact ⟨e, he, rfl⟩

theorem firstOccur_go_mem :
    ∀ (L : List String) (acc : List String) (c : String),
      c ∈ L.foldl (fun ks x => if x ∈ ks then ks else ks ++ [x]) acc →
      c ∈ acc ∨ c ∈ L := by
  intro L
  induction L with
  | nil => intro acc c hc; exact Or.inl hc
  | cons a t ih =>
    intro acc c hc
    rcases ih _ c hc with hacc | ht
    · simp only [] at hacc
      by_cases ha : a ∈ acc
      · rw [if_pos ha] at hacc
        exact Or.inl hacc
      · rw [if_neg ha, List.mem_append, List.mem_singleton] at hacc
        rcases hacc with h1 | h1
        · exact Or.inl h1
        · exact Or.inr (h1 ▸ List.mem_cons_self a t)
    · exact Or.inr (List.mem_cons_of_mem a ht)

theorem firstOccur_subset {L : List String} {c : String}
    (hc : c ∈ firstOccur L) : c ∈ L := by
  unfold firstOccur at hc
  rcases firstOccur_go_mem L [] c hc with h | h
  · exact absurd h (List.not_mem_nil c)
  · exact h

/-- If no encountered category is an array-index name, the summary rows'
categories appear in first-encounter order. -/
theorem summaryEntries_map_category_of_no_index {l : List SavedReceiptData}
    (h : ∀ c ∈ l.map categoryOf, isArrayIndexName c = false) :
    (summaryEntries l).map SummaryData.category = firstOccur (l.map categoryOf) := by
  have hkeys : ∀ e ∈ buildSummary l, isArrayIndexName e.1 = false := by
    intro e he
    have h1 : e.1 ∈ (buildSummary l).map (fun e => e.1) := List.mem_map_of_mem _ he
    rw [buildSummary_keys] at h1
    exact h (e.1) (firstOccur_subset h1)
  unfold summaryEntries
  rw [jsObjectEntries_of_no_index hkeys, List.map_map, ← buildSummary_keys]
  rfl

theorem dateKeyAll_eq_claimDateKey (r : SavedReceiptData) :
    dateKeyAll r = claimDateKey r := by
  unfold dateKeyAll claimDateKey claimDateMs jsDateUTCms
  cases hr : r.transaction_date with
  | none => rfl
  | some s =>
    by_cases hs : s = ""
    · subst hs
      have hn : parseYMD ("") = none := by decide
      simp [hn]
    · simp only [if_neg hs]
      cases hp : parseYMD s with
      | none => simp [hp]
      | some p => simp [hp]

/-! ### Claim C1 -/

/-- Claim C1: for every record collection and every non-"All" period token,
the sum over all summary groups of the group's total equals the sum of
`total_amount` (treating an absent amount as 0) over exactly the records
that the period's date-range filter includes. -/
theorem claim_C1_summary_totals_match_filter (now : Now) (period : FilterPeriod)
    (receipts : List SavedReceiptData) (h : period ≠ FilterPeriod.All) :
    (((historyView now period receipts).2).map SummaryData.total).sum
      = ((relevantReceipts now period receipts).map amountOf).sum := by
  rw [historyView_snd now period receipts h]
  have hp := (sortSummaryDesc_perm (summaryEntries (relevantReceipts now period receipts))).map
    SummaryData.total
  rw [hp.sum_eq, summaryEntries_total_sum, buildSummary_totals]

theorem claim_C1_witness :
    (((historyView ⟨2024, 2, 20⟩ FilterPeriod.Monthly
        [⟨("a"), none, some 7, some ("2024-03-01"), some ("Groceries")⟩,
         ⟨("b"), none, some 5, some ("2024-03-15"), none⟩]).2).map SummaryData.total).sum
      = ((relevantReceipts ⟨2024, 2, 20⟩ FilterPeriod.Monthly
        [⟨("a"), none, some 7, some ("2024-03-01"), some ("Groceries")⟩,
         ⟨("b"), none, some 5, some ("2024-03-15"), none⟩]).map amountOf).sum :=
  claim_C1_summary_totals_match_filter ⟨2024, 2, 20⟩ FilterPeriod.Monthly
    [⟨("a"), none, some 7, some ("2024-03-01"), some ("Groceries")⟩,
     ⟨("b"), none, some 5, some ("2024-03-15"), none⟩] (by decide)

/-! ### Claim C10 -/

/-- Claim C10 (implicit): for every record collection and every non-"All"
period, every emitted summary group has `transactionCount ≥ 1`, and the
transaction counts over all groups sum to the number of records the period's
date-range filter includes. -/
theorem claim_C10_group_counts (now : Now) (period : FilterPeriod)
    (receipts : List SavedReceiptData) (h : period ≠ FilterPeriod.All) :
    (∀ g ∈ (historyView now period receipts).2, 1 ≤ g.transactionCount) ∧
    (((historyView now period receipts).2).map SummaryData.transactionCount).sum
      = (relevantReceipts now period receipts).length := by
  constructor
  · intro g hg
    rw [historyView_snd now period receipts h] at hg
    have hg2 : g ∈ summaryEntries (relevantReceipts now period receipts) :=
      (sortSummaryDesc_perm _).mem_iff.mp hg
    obtain ⟨e, he, rfl⟩ := summaryEntries_mem hg2
    exact buildSummary_pos _ e he
  · rw [historyView_snd now period receipts h,
      ((sortSummaryDesc_perm _).map SummaryData.transactionCount).sum_eq,
      summaryEntries_count_sum, buildSummary_counts]

theorem claim_C10_witness :
    (∀ g ∈ (historyView ⟨2024, 2, 20⟩ FilterPeriod.Monthly
        [⟨("a"), none, some 7, some ("2024-03-01"), some ("Groceries")⟩]).2,
      1 ≤ g.transactionCount) ∧
    (((historyView ⟨2024, 2, 20⟩ FilterPeriod.Monthly
        [⟨("a"), none, some 7, some ("2024-03-01"), some ("Groceries")⟩]).2).map
      SummaryData.transactionCount).sum
      = (relevantReceipts ⟨2024, 2, 20⟩ FilterPeriod.Monthly
          [⟨("a"), none, some 7, some ("2024-03-01"), some ("Groceries")⟩]).length :=
  claim_C10_group_counts ⟨2024, 2, 20⟩ FilterPeriod.Monthly
    [⟨("a"), none, some 7, some ("2024-03-01"), some ("Groceries")⟩] (by decide)

/-! ### Claim C4 (corrected) -/

/-- Claim C4 counterexample: two March-2024 records with equal totals and
categories first encountered in the order `Food`, `42`.  Because `42` is a
canonical array-index property name, `Object.entries` reports its group
first, so the program's tied summary rows come out `42`, `Food` — not in
first-encounter order — refuting the claim's tie rule as stated. -/
theorem claim_C4_counterexample :
    (historyView ⟨2024, 2, 20⟩ FilterPeriod.Monthly
        [⟨("a"), none, some 5, some ("2024-03-01"), some ("Food")⟩,
         ⟨("b"), none, some 5, some ("2024-03-02"), some ("42")⟩]).2
        = [⟨("42"), 5, 1⟩, ⟨("Food"), 5, 1⟩] ∧
    firstOccur ((relevantReceipts ⟨2024, 2, 20⟩ FilterPeriod.Monthly
        [⟨("a"), none, some 5, some ("2024-03-01"), some ("Food")⟩,
         ⟨("b"), none, some 5, some ("2024-03-02"), some ("42")⟩]).map categoryOf)
        = [("Food"), ("42")] := by
  constructor
  · rw [historyView_snd _ _ _ (by decide)]
    have h1 : summaryEntries (relevantReceipts ⟨2024, 2, 20⟩ FilterPeriod.Monthly
        [⟨("a"), none, some 5, some ("2024-03-01"), some ("Food")⟩,
         ⟨("b"), none, some 5, some ("2024-03-02"), some ("42")⟩])
        = [⟨("42"), 0 + 5, 0 + 1⟩, ⟨("Food"), 0 + 5, 0 + 1⟩] := rfl
    rw [h1]
    have hc : cmpTotalDesc ⟨("42"), 0 + 5, 0 + 1⟩ ⟨("Food"), 0 + 5, 0 + 1⟩ = true := by
      simp [cmpTotalDesc]
    have hsub : [(⟨("42"), 0 + 5, 0 + 1⟩ : SummaryData),
        ⟨("Food"), 0 + 5, 0 + 1⟩].Sublist
        (sortSummaryDesc [⟨("42"), 0 + 5, 0 + 1⟩, ⟨("Food"), 0 + 5, 0 + 1⟩]) :=
      sortSummaryDesc_stable hc (List.Sublist.refl _)
    have hlen : (sortSummaryDesc [(⟨("42"), 0 + 5, 0 + 1⟩ : SummaryData),
        ⟨("Food"), 0 + 5, 0 + 1⟩]).length = 2 :=
      (sortSummaryDesc_perm _).length_eq
    have heq : sortSummaryDesc [(⟨("42"), 0 + 5, 0 + 1⟩ : SummaryData),
        ⟨("Food"), 0 + 5, 0 + 1⟩]
        = [⟨("42"), 0 + 5, 0 + 1⟩, ⟨("Food"), 0 + 5, 0 + 1⟩] :=
      (hsub.eq_of_length (by rw [hlen]; rfl)).symm
    rw [heq]
    simp
  · decide

/-- Claim C4 amended: for every record collection and every non-"All" period,
the summary rows are sorted descending by summed total (in the `Pairwise`
form, which covers every adjacent pair); rows with equal totals keep the
order in which `Object.entries` reports the groups — canonical array-index
category names first in ascending numeric order, then the remaining
categories in first-encounter order — and whenever no encountered category
is an array-index name (true of every category the data model enumerates,
and of "Uncategorized"), that reported order is exactly first-encounter
order, so the claim's original tie rule holds.  Only the tie-order clause
changes, and only for array-index-like category names. -/
theorem claim_C4_amended_sorted_stable (now : Now) (period : FilterPeriod)
    (receipts : List SavedReceiptData) (h : period ≠ FilterPeriod.All) :
    ((historyView now period receipts).2).Pairwise (fun a b => b.total ≤ a.total) ∧
    (∀ x y : SummaryData, x.total = y.total →
      [x, y].Sublist (summaryEntries (relevantReceipts now period receipts)) →
      [x, y].Sublist ((historyView now period receipts).2)) ∧
    ((∀ c ∈ (relevantReceipts now period receipts).map categoryOf,
        isArrayIndexName c = false) →
      (summaryEntries (relevantReceipts now period receipts)).map SummaryData.category
        = firstOccur ((relevantReceipts now period receipts).map categoryOf)) := by
  refine ⟨?_, ?_, ?_⟩
  · rw [historyView_snd now period receipts h]
    exact sortSummaryDesc_sorted _
  · intro x y hxy hsub
    rw [historyView_snd now period receipts h]
    exact sortSummaryDesc_stable (by simp [cmpTotalDesc, hxy]) hsub
  · intro hni
    exact summaryEntries_map_category_of_no_index hni

theorem claim_C4_witness :
    ((historyView ⟨2024, 2, 20⟩ FilterPeriod.Monthly
        [⟨("a"), none, some 7, some ("2024-03-01"), some ("Groceries")⟩]).2).Pairwise
      (fun a b => b.total ≤ a.total) ∧
    (∀ x y : SummaryData, x.total = y.total →
      [x, y].Sublist (summaryEntries (relevantReceipts ⟨2024, 2, 20⟩ FilterPeriod.Monthly
        [⟨("a"), none, some 7, some ("2024-03-01"), some ("Groceries")⟩])) →
      [x, y].Sublist ((historyView ⟨2024, 2, 20⟩ FilterPeriod.Monthly
        [⟨("a"), none, some 7, some ("2024-03-01"), some ("Groceries")⟩]).2)) ∧
    ((∀ c ∈ (relevantReceipts ⟨2024, 2, 20⟩ FilterPeriod.Monthly
        [⟨("a"), none, some 7, some ("2024-03-01"), some ("Groceries")⟩]).map categoryOf,
        isArrayIndexName c = false) →
      (summaryEntries (relevantReceipts ⟨2024, 2, 20⟩ FilterPeriod.Monthly
        [⟨("a"), none, some 7, some ("2024-03-01"), some ("Groceries")⟩])).map
        SummaryData.category
        = firstOccur ((relevantReceipts ⟨2024, 2, 20⟩ FilterPeriod.Monthly
            [⟨("a"), none, some 7, some ("2024-03-01"), some ("Groceries")⟩]).map
            categoryOf)) :=
  claim_C4_amended_sorted_stable ⟨2024, 2, 20⟩ FilterPeriod.Monthly
    [⟨("a"), none, some 7, some ("2024-03-01"), some ("Groceries")⟩] (by decide)

/-! ### Claim C6 -/

/-- Claim C6: for every record collection, the flat ("All") view of either
variant lists exactly the collection's records (a permutation), sorted
descending by the date key under which an absent transaction date counts as
the epoch (key 0), so such records sort after every record bearing a later
(positive-key) date. -/
theorem claim_C6_flat_sort_desc (now : Now) (receipts : List SavedReceiptData) :
    List.Perm ((historyView now FilterPeriod.All receipts).1) receipts ∧
    ((historyView now FilterPeriod.All receipts).1).Pairwise
      (fun a b => claimDateKey b ≤ claimDateKey a) ∧
    List.Perm (sortedReceiptsV1 now FilterPeriod.All receipts) receipts ∧
    (sortedReceiptsV1 now FilterPeriod.All receipts).Pairwise
      (fun a b => claimDateKey b ≤ claimDateKey a) ∧
    (∀ r : SavedReceiptData, r.transaction_date = none → claimDateKey r = 0) := by
  have hv1 : sortedReceiptsV1 now FilterPeriod.All receipts = sortReceiptsDesc receipts := by
    unfold sortedReceiptsV1 filterReceipts
    rw [if_pos rfl]
  have hkey : ∀ l : List SavedReceiptData,
      (sortReceiptsDesc l).Pairwise (fun a b => claimDateKey b ≤ claimDateKey a) := by
    intro l
    exact (sortReceiptsDesc_sorted l).imp
      (fun hab => by
        rwa [dateKeyAll_eq_claimDateKey, dateKeyAll_eq_claimDateKey] at hab)
  refine ⟨?_, ?_, ?_, ?_, ?_⟩
  · rw [historyView_all]
    exact sortReceiptsDesc_perm receipts
  · rw [historyView_all]
    exact hkey receipts
  · rw [hv1]
    exact sortReceiptsDesc_perm receipts
  · rw [hv1]
    exact hkey receipts
  · intro r hr
    unfold claimDateKey
    rw [hr]

theorem claim_C6_witness :
    List.Perm ((historyView ⟨2024, 2, 20⟩ FilterPeriod.All
        [⟨("a"), none, none, some ("2024-03-01"), none⟩,
         ⟨("b"), none, none, none, none⟩]).1)
      [⟨("a"), none, none, some ("2024-03-01"), none⟩,
       ⟨("b"), none, none, none, none⟩] ∧
    ((historyView ⟨2024, 2, 20⟩ FilterPeriod.All
        [⟨("a"), none, none, some ("2024-03-01"), none⟩,
         ⟨("b"), none, none, none, none⟩]).1).Pairwise
      (fun a b => claimDateKey b ≤ claimDateKey a) ∧
    List.Perm (sortedReceiptsV1 ⟨2024, 2, 20⟩ FilterPeriod.All
        [⟨("a"), none, none, some ("2024-03-01"), none⟩,
         ⟨("b"), none, none, none, none⟩])
      [⟨("a"), none, none, some ("2024-03-01"), none⟩,
       ⟨("b"), none, none, none, none⟩] ∧
    (sortedReceiptsV1 ⟨2024, 2, 20⟩ FilterPeriod.All
        [⟨("a"), none, none, some ("2024-03-01"), none⟩,
         ⟨("b"), none, none, none, none⟩]).Pairwise
      (fun a b => claimDateKey b ≤ claimDateKey a) ∧
    (∀ r : SavedReceiptData, r.transaction_date = none → claimDateKey r = 0) :=
  claim_C6_flat_sort_desc ⟨2024, 2, 20⟩
    [⟨("a"), none, none, some ("2024-03-01"), none⟩,
     ⟨("b"), none, none, none, none⟩]

/-! ### Millisecond/day conversion helpers -/

theorem msPerDay_eq_iff {a b : Int} : a * msPerDay = b * msPerDay ↔ a = b := by
  unfold msPerDay
  omega

theorem msPerDay_le_iff {a b : Int} : a * msPerDay ≤ b * msPerDay ↔ a ≤ b := by
  unfold msPerDay
  omega

theorem msPerDay_le_end_iff {a b : Int} :
    a * msPerDay ≤ b * msPerDay + endOfDayMs ↔ a ≤ b := by
  unfold msPerDay endOfDayMs
  omega

/-! ### Claim C3 -/

/-- Claim C3: for every record whose transaction date parses as a calendar
date, the Daily filter of either variant includes the record iff that
calendar date's epoch day equals today's epoch day. -/
theorem claim_C3_daily_iff_today (now : Now) (r : SavedReceiptData) (s : String)
    (y m d : Int) (h1 : r.transaction_date = some s)
    (h2 : parseYMD s = some (y, m, d)) :
    (v1Keep now FilterPeriod.Daily r = true ↔ daysFromCivil y m d = now.epochDay) ∧
    (v2Keep now FilterPeriod.Daily r = true ↔ daysFromCivil y m d = now.epochDay) := by
  have hs : s ≠ "" := parseYMD_ne_empty h2
  constructor
  · have hgs : getStartDate now FilterPeriod.Daily = now.epochDay * msPerDay := rfl
    simp only [v1Keep, h1, if_neg hs, parseLocalMs_of_parseYMD h2, hgs, if_true]
    simp only [decide_eq_true_eq]
    exact msPerDay_eq_iff
  · have hpr : getPeriodDateRange now FilterPeriod.Daily
        = (now.epochDay * msPerDay, now.epochDay * msPerDay + endOfDayMs) := rfl
    simp only [v2Keep, h1, if_neg hs, jsDateUTCms_of_parseYMD h2, hpr,
      Bool.and_eq_true, decide_eq_true_eq]
    unfold msPerDay endOfDayMs
    omega

theorem claim_C3_witness :
    (v1Keep ⟨2024, 2, 20⟩ FilterPeriod.Daily
        ⟨("a"), none, none, some ("2024-03-20"), none⟩ = true ↔
      daysFromCivil 2024 3 20 = Now.epochDay ⟨2024, 2, 20⟩) ∧
    (v2Keep ⟨2024, 2, 20⟩ FilterPeriod.Daily
        ⟨("a"), none, none, some ("2024-03-20"), none⟩ = true ↔
      daysFromCivil 2024 3 20 = Now.epochDay ⟨2024, 2, 20⟩) :=
  claim_C3_daily_iff_today ⟨2024, 2, 20⟩
    ⟨("a"), none, none, some ("2024-03-20"), none⟩ ("2024-03-20") 2024 3 20
    rfl (by decide)

/-! ### Claim C2 (corrected) -/

/-- Claim C2 counterexample: with "now" = 2024-03-20, the FIRST variant's
Monthly filter includes a record dated 2024-02-25 (its Monthly window is
"the last 30 days", midnight 30 days ago onward, with no upper bound), but
that date does not fall within the current calendar month, refuting the
claim's iff as stated. -/
theorem claim_C2_counterexample :
    v1Keep ⟨2024, 2, 20⟩ FilterPeriod.Monthly
        ⟨("a"), none, none, some ("2024-02-25"), none⟩ = true ∧
    claimMonthlyIncludes ⟨2024, 2, 20⟩
        ⟨("a"), none, none, some ("2024-02-25"), none⟩ = false := by
  decide

/-- Claim C2 amended: the claim holds of the SECOND variant — its Monthly
filter includes a parseable-dated record iff the date falls between the first
calendar day of the current month at midnight and the last calendar day at
23:59:59.999, both endpoints inclusive.  The FIRST variant's Monthly filter
instead includes such a record iff its date is on or after midnight 30 days
before today (no upper bound). -/
theorem claim_C2_amended_monthly (now : Now) (r : SavedReceiptData) (s : String)
    (y m d : Int) (h1 : r.transaction_date = some s)
    (h2 : parseYMD s = some (y, m, d)) :
    (v2Keep now FilterPeriod.Monthly r = true ↔ claimMonthlyIncludes now r = true) ∧
    (v1Keep now FilterPeriod.Monthly r = true ↔
      now.epochDay - 30 ≤ daysFromCivil y m d) := by
  have hs : s ≠ "" := parseYMD_ne_empty h2
  constructor
  · have hpr : getPeriodDateRange now FilterPeriod.Monthly
        = (jsMakeDay now.year now.monthIdx 1 * msPerDay,
           jsMakeDay now.year (now.monthIdx + 1) 0 * msPerDay + endOfDayMs) := rfl
    have hend : jsMakeDay now.year (now.monthIdx + 1) 0
        = jsMakeDay now.year (now.monthIdx + 1) 1 - 1 := by
      rw [jsMakeDay_shift now.year (now.monthIdx + 1) 0 1]
      ring
    simp only [v2Keep, h1, if_neg hs, jsDateUTCms_of_parseYMD h2, hpr,
      claimMonthlyIncludes, h2, claimMonthFirstDay, claimMonthLastDay, claimDateMs,
      hend, Bool.and_eq_true, decide_eq_true_eq]
  · have hgs : getStartDate now FilterPeriod.Monthly
        = jsMakeDay now.year now.monthIdx (now.day - 30) * msPerDay := rfl
    have hshift : jsMakeDay now.year now.monthIdx (now.day - 30)
        = now.epochDay - 30 := by
      rw [jsMakeDay_shift now.year now.monthIdx (now.day - 30) now.day]
      unfold Now.epochDay
      ring
    simp only [v1Keep, h1, if_neg hs, parseLocalMs_of_parseYMD h2, hgs, hshift]
    rw [if_neg (by decide)]
    simp only [decide_eq_true_eq]
    exact msPerDay_le_iff

theorem claim_C2_witness :
    (v2Keep ⟨2024, 2, 20⟩ FilterPeriod.Monthly
        ⟨("a"), none, none, some ("2024-02-25"), none⟩ = true ↔
      claimMonthlyIncludes ⟨2024, 2, 20⟩
        ⟨("a"), none, none, some ("2024-02-25"), none⟩ = true) ∧
    (v1Keep ⟨2024, 2, 20⟩ FilterPeriod.Monthly
        ⟨("a"), none, none, some ("2024-02-25"), none⟩ = true ↔
      Now.epochDay ⟨2024, 2, 20⟩ - 30 ≤ daysFromCivil 2024 2 25) :=
  claim_C2_amended_monthly ⟨2024, 2, 20⟩
    ⟨("a"), none, none, some ("2024-02-25"), none⟩ ("2024-02-25") 2024 2 25
    rfl (by decide)

/-! ### Claim C9 -/

/-- Claim C9: for every "now", the Weekly range starts on the Monday of the
current week at local midnight — 6 days before today when today is Sunday,
otherwise today minus (dayOfWeek − 1) days — and ends exactly 6 days after
the start at 23:59:59.999; a record with a parseable date is included iff
its date's timestamp lies within the range, both endpoints inclusive. -/
theorem claim_C9_weekly_range (now : Now) :
    ∃ startDay : Int,
      startDay = now.epochDay
          - (if jsDayOfWeek now.epochDay = 0 then 6 else jsDayOfWeek now.epochDay - 1) ∧
      jsDayOfWeek startDay = 1 ∧
      (getPeriodDateRange now FilterPeriod.Weekly).1 = startDay * msPerDay ∧
      (getPeriodDateRange now FilterPeriod.Weekly).2
          = (startDay + 6) * msPerDay + endOfDayMs ∧
      (∀ (r : SavedReceiptData) (s : String) (y m d : Int),
        r.transaction_date = some s → parseYMD s = some (y, m, d) →
        (v2Keep now FilterPeriod.Weekly r = true ↔
          ((getPeriodDateRange now FilterPeriod.Weekly).1 ≤ claimDateMs y m d ∧
           claimDateMs y m d ≤ (getPeriodDateRange now FilterPeriod.Weekly).2))) := by
  have hrange : getPeriodDateRange now FilterPeriod.Weekly
      = (jsMakeDay now.year now.monthIdx
           (now.day - jsDayOfWeek now.epochDay
             + (if jsDayOfWeek now.epochDay = 0 then -6 else 1)) * msPerDay,
         jsMakeDay now.year now.monthIdx
           (now.day - jsDayOfWeek now.epochDay
             + (if jsDayOfWeek now.epochDay = 0 then -6 else 1) + 6) * msPerDay
           + endOfDayMs) := rfl
  have hstart : jsMakeDay now.year now.monthIdx
      (now.day - jsDayOfWeek now.epochDay
        + (if jsDayOfWeek now.epochDay = 0 then -6 else 1))
      = now.epochDay
          - (if jsDayOfWeek now.epochDay = 0 then 6 else jsDayOfWeek now.epochDay - 1) := by
    rw [jsMakeDay_shift now.year now.monthIdx
      (now.day - jsDayOfWeek now.epochDay
        + (if jsDayOfWeek now.epochDay = 0 then -6 else 1)) now.day]
    show Now.epochDay now + _ = _
    by_cases h0 : jsDayOfWeek now.epochDay = 0
    · rw [if_pos h0, if_pos h0, h0]
      ring
    · rw [if_neg h0, if_neg h0]
      ring
  have hmonday : ∀ E : Int,
      jsDayOfWeek (E - (if jsDayOfWeek E = 0 then 6 else jsDayOfWeek E - 1)) = 1 := by
    intro E
    unfold jsDayOfWeek
    by_cases h0 : (E + 4) % 7 = 0
    · rw [if_pos h0]
      omega
    · rw [if_neg h0]
      omega
  refine ⟨now.epochDay
      - (if jsDayOfWeek now.epochDay = 0 then 6 else jsDayOfWeek now.epochDay - 1),
    rfl, hmonday now.epochDay, ?_, ?_, ?_⟩
  · rw [hrange]
    show _ * msPerDay = _ * msPerDay
    rw [hstart]
  · rw [hrange]
    show jsMakeDay _ _ (_ + 6) * msPerDay + endOfDayMs = _
    rw [jsMakeDay_add_day, hstart]
  · intro r s y m d h1 h2
    have hs : s ≠ "" := parseYMD_ne_empty h2
    simp only [v2Keep, h1, if_neg hs, jsDateUTCms_of_parseYMD h2, claimDateMs,
      Bool.and_eq_true, decide_eq_true_eq]

theorem claim_C9_witness :
    ∃ startDay : Int,
      startDay = Now.epochDay ⟨2024, 2, 20⟩
          - (if jsDayOfWeek (Now.epochDay ⟨2024, 2, 20⟩) = 0 then 6
             else jsDayOfWeek (Now.epochDay ⟨2024, 2, 20⟩) - 1) ∧
      jsDayOfWeek startDay = 1 ∧
      (getPeriodDateRange ⟨2024, 2, 20⟩ FilterPeriod.Weekly).1 = startDay * msPerDay ∧
      (getPeriodDateRange ⟨2024, 2, 20⟩ FilterPeriod.Weekly).2
          = (startDay + 6) * msPerDay + endOfDayMs ∧
      (∀ (r : SavedReceiptData) (s : String) (y m d : Int),
        r.transaction_date = some s → parseYMD s = some (y, m, d) →
        (v2Keep ⟨2024, 2, 20⟩ FilterPeriod.Weekly r = true ↔
          ((getPeriodDateRange ⟨2024, 2, 20⟩ FilterPeriod.Weekly).1 ≤ claimDateMs y m d ∧
           claimDateMs y m d
             ≤ (getPeriodDateRange ⟨2024, 2, 20⟩ FilterPeriod.Weekly).2))) :=
  claim_C9_weekly_range ⟨2024, 2, 20⟩

/-! ### Claim C5 -/

/-- Claim C5: a record whose transaction date is absent is excluded by every
period filter other than "All" in both variants, while the "All" view of
both variants includes it. -/
theorem claim_C5_absent_date (now : Now) (r : SavedReceiptData)
    (hd : r.transaction_date = none) :
    (∀ period, period ≠ FilterPeriod.All →
      v1Keep now period r = false ∧ v2Keep now period r = false) ∧
    (∀ receipts : List SavedReceiptData, r ∈ receipts →
      r ∈ filterReceipts now FilterPeriod.All receipts ∧
      r ∈ (historyView now FilterPeriod.All receipts).1) := by
  constructor
  · intro period _
    constructor
    · simp [v1Keep, hd]
    · simp [v2Keep, hd]
  · intro receipts hr
    constructor
    · unfold filterReceipts
      rw [if_pos rfl]
      exact hr
    · rw [historyView_all]
      exact (sortReceiptsDesc_perm receipts).mem_iff.mpr hr

theorem claim_C5_witness :
    (∀ period, period ≠ FilterPeriod.All →
      v1Keep ⟨2024, 2, 20⟩ period ⟨("b"), none, none, none, none⟩ = false ∧
      v2Keep ⟨2024, 2, 20⟩ period ⟨("b"), none, none, none, none⟩ = false) ∧
    (∀ receipts : List SavedReceiptData,
      (⟨("b"), none, none, none, none⟩ : SavedReceiptData) ∈ receipts →
      (⟨("b"), none, none, none, none⟩ : SavedReceiptData)
          ∈ filterReceipts ⟨2024, 2, 20⟩ FilterPeriod.All receipts ∧
      (⟨("b"), none, none, none, none⟩ : SavedReceiptData)
          ∈ (historyView ⟨2024, 2, 20⟩ FilterPeriod.All receipts).1) :=
  claim_C5_absent_date ⟨2024, 2, 20⟩ ⟨("b"), none, none, none, none⟩ rfl

/-! ### CSV lemmas -/

theorem replaceQuotes_chars : ∀ l : List Char,
    l.foldr (fun c acc => if c = '"' then '"' :: '"' :: acc else c :: acc) []
      = l.flatMap (fun c => if c = '"' then ['"', '"'] else [c]) := by
  intro l
  induction l with
  | nil => rfl
  | cons c t ih => by_cases hc : c = '"' <;> simp [hc, ih]

theorem jsReplaceQuotes_eq (s : String) : jsReplaceQuotes s = escapeQuotesSpec s := by
  unfold jsReplaceQuotes escapeQuotesSpec
  rw [replaceQuotes_chars]

theorem intercalate4 (a b c d : String) :
    String.intercalate (",") [a, b, c, d]
      = a ++ (",") ++ b ++ (",") ++ c ++ (",") ++ d := by
  simp [String.intercalate, String.intercalate.go]

theorem repr_length_lt10 : ∀ m : Nat, m < 10 → (toString m).length = 1 := by decide

theorem repr_length_lt100 : ∀ m : Nat, m < 100 → (10 ≤ m → (toString m).length = 2) := by
  decide

theorem repr_digits_lt100 : ∀ m : Nat, m < 100 →
    (toString m).data.all Char.isDigit = true := by decide

theorem natFixed2_shape (n : Nat) :
    ∃ frac : String, natFixed2 n = toString (n / 100) ++ (".") ++ frac ∧
      frac.length = 2 ∧ frac.data.all Char.isDigit = true := by
  have hmod : n % 100 < 100 := Nat.mod_lt _ (by omega)
  unfold natFixed2
  by_cases h : n % 100 < 10
  · refine ⟨("0") ++ toString (n % 100), by rw [if_pos h], ?_, ?_⟩
    · rw [String.length_append, repr_length_lt10 (n % 100) h]
      rfl
    · rw [String.data_append, List.all_append]
      have h2 := repr_digits_lt100 (n % 100) hmod
      rw [h2]
      rfl
  · refine ⟨toString (n % 100), by rw [if_neg h], ?_, ?_⟩
    · exact repr_length_lt100 (n % 100) hmod (by omega)
    · exact repr_digits_lt100 (n % 100) hmod

/-! ### Claim C7 (corrected) -/

/-- Claim C7 counterexample: on a record with every field absent, the actual
CSV row of both variants' `downloadCSV` renders the amount field as `0.00`
(the `|| '0.00'` fallback), not as the literal `N/A` the claim's reading
(`claimRowSpec`) prescribes for absent values. -/
theorem claim_C7_counterexample :
    csvRowAll ⟨("x"), none, none, none, none⟩
        ≠ claimRowSpec ⟨("x"), none, none, none, none⟩ ∧
    csvRowAll ⟨("x"), none, none, none, none⟩ = ("N/A,\"N/A\",0.00,N/A") ∧
    claimRowSpec ⟨("x"), none, none, none, none⟩ = ("N/A,\"N/A\",N/A,N/A") := by
  decide

/-- Claim C7 amended: every flat-view CSV row is date, quoted merchant with
every embedded double quote doubled, amount, category, comma-joined; absent
date, merchant and category render as `N/A`, a present amount is formatted
with exactly two decimal places, and an ABSENT AMOUNT renders as `0.00`
(this last clause is what the counterexample forces the claim to change). -/
theorem claim_C7_amended_row :
    (∀ r : SavedReceiptData, csvRowAll r = amendedRowSpec r) ∧
    (∀ q : ℚ, 0 ≤ q → ∃ intPart frac : String,
      jsToFixed2 q = intPart ++ (".") ++ frac ∧ frac.length = 2 ∧
      frac.data.all Char.isDigit = true) := by
  constructor
  · intro r
    unfold csvRowAll amendedRowSpec
    rw [intercalate4, jsReplaceQuotes_eq]
  · intro q hq
    unfold jsToFixed2
    rw [if_neg (not_lt.mpr hq)]
    obtain ⟨frac, hf, hl, hd⟩ := natFixed2_shape ⌊q * 100 + 1 / 2⌋.toNat
    exact ⟨toString (⌊q * 100 + 1 / 2⌋.toNat / 100), frac, hf, hl, hd⟩

theorem claim_C7_witness :
    csvRowAll ⟨("x"), some ("Al\"s Diner"), some 5, some ("2024-03-01"), some ("Food & Drink")⟩
        = amendedRowSpec ⟨("x"), some ("Al\"s Diner"), some 5, some ("2024-03-01"),
            some ("Food & Drink")⟩ ∧
    (∃ intPart frac : String,
      jsToFixed2 5 = intPart ++ (".") ++ frac ∧ frac.length = 2 ∧
      frac.data.all Char.isDigit = true) :=
  ⟨claim_C7_amended_row.1 ⟨("x"), some ("Al\"s Diner"), some 5, some ("2024-03-01"),
      some ("Food & Drink")⟩,
   claim_C7_amended_row.2 5 (by decide)⟩

/-! ### Claim C8 -/

/-- Claim C8: an extraction result with a present date whose year component
differs from the current system year is rejected by the analyze flow with the
year-mismatch error naming the required year (so it never reaches
`setReceiptData`), while a result with an absent date is never rejected by
this check. -/
theorem claim_C8_year_mismatch (cy : Int) (result : ReceiptData) (s : String)
    (y m d : Int) (h1 : result.transaction_date = some s)
    (h2 : parseYMD s = some (y, m, d)) (h3 : y ≠ cy) :
    validateYear cy result
        = Except.error (("Invalid year. Only receipts for the calendar year ")
            ++ toString cy ++ (" are accepted.")) ∧
    (∀ r2 : ReceiptData, r2.transaction_date = none →
      validateYear cy r2 = Except.ok r2) := by
  constructor
  · have hs : s ≠ "" := parseYMD_ne_empty h2
    simp only [validateYear, h1, if_neg hs, jsParseIntChars_firstChunk h2]
    rw [if_neg h3]
  · intro r2 hr2
    simp [validateYear, hr2]

theorem claim_C8_witness :
    validateYear 2024 ⟨none, none, some ("2023-05-01"), none⟩
        = Except.error (("Invalid year. Only receipts for the calendar year ")
            ++ toString (2024 : Int) ++ (" are accepted.")) ∧
    (∀ r2 : ReceiptData, r2.transaction_date = none →
      validateYear 2024 r2 = Except.ok r2) :=
  claim_C8_year_mismatch 2024 ⟨none, none, some ("2023-05-01"), none⟩ ("2023-05-01")
    2023 5 1 rfl (by decide) (by decide)
